import Mathlib

/-!
# zyre_tools: the event multiplexer, the filter and the command loop

A shallow embedding of `src/zyre_tools.cpp`.

* `receiveLoop` (the actor) is a function of the sequence of results that
  `zpoller_wait` / `zmsg_recv` hand to it.  Its local variables
  `node_to_print`, `group_to_print`, the global `uuid_to_name_map` and the
  text written to `std::cout` form the state `LoopState`.
* A `zmsg_t` is the list of its frames, `zmsg_popstr` pops the first one and
  gives `none` (the C `NULL`) on an exhausted message.
* Undefined behaviour on a `NULL` pointer (`zmsg_popstr (NULL)`,
  `std::string (NULL)`, `streq (NULL, ..)`, `std::cout << (char*) NULL`) and
  the `assert (false)` branch are the two kinds of `Fault`.
* The main thread's functions act on a `World`: the overlay as seen through
  the zyre calls, the node's own groups, the two output streams and the
  ordered record of `zyre_join` / `zyre_leave` / `zstr_sendx` calls.
-/

namespace ZyreTools

/-! ## The peer directory `uuid_to_name_map` -/

/-- The global `std::map<std::string, std::string> uuid_to_name_map`, kept as
an association list in which every key occurs at most once. -/
abbrev NameMap := List (String × String)

/-- The lookup `uuid_to_name_map.find (key)`: `none` stands for `end ()`. -/
def mapFind : NameMap → String → Option String
  | [], _ => none
  | (k, v) :: m, key => if k = key then some v else mapFind m key

/-- The assignment `uuid_to_name_map[key] = value`: overwrite the value of an
existing key, insert the pair otherwise. -/
def mapAssign : NameMap → String → String → NameMap
  | [], key, value => [(key, value)]
  | (k, v) :: m, key, value =>
    if k = key then (k, value) :: m else (k, v) :: mapAssign m key value

/-! ## Messages and poll results -/

/-- A `zmsg_t`: the list of its frames, first frame first. -/
abbrev Zmsg := List String

/-- The call `zmsg_popstr (msg)`: the first frame and the rest of the message,
`none` (a `NULL` pointer) when no frame is left. -/
def zmsg_popstr : Zmsg → Option String × Zmsg
  | [] => (none, [])
  | f :: fs => (some f, fs)

/-- One result of `zpoller_wait` together with what `zmsg_recv (which)` then
returns: `none` is the `NULL` message of a closed or interrupted socket. -/
inductive Which where
  | pipe (msg : Option Zmsg)
  | node (msg : Option Zmsg)
  | null
  deriving DecidableEq, Repr

/-- The two ways an iteration of `receiveLoop` can end the process. -/
inductive Fault where
  /-- The branch `std::cerr << "invalid message to actor"; assert (false)`. -/
  | invalidMessage
  /-- A `NULL` pointer used as a message or as a C string. -/
  | nullPointer
  deriving DecidableEq, Repr

/-- The variables `receiveLoop` works on. -/
structure LoopState where
  node_to_print : String
  group_to_print : String
  uuid_to_name_map : NameMap
  cout : String
  deriving DecidableEq, Repr

/-- How one pass through the body of `while (!terminated)` ends. -/
inductive Iter where
  /-- The body ran to its end; `terminated` is the flag's new value. -/
  | next (s : LoopState) (terminated : Bool)
  /-- The statement `break`. -/
  | brk (s : LoopState)
  | abort (f : Fault)
  deriving DecidableEq, Repr

/-- The `else if (which == zyre_socket (node))` branch, lines 69-90, for a
message that was received. -/
def nodeBranch (s : LoopState) (msg : Zmsg) : Iter :=
  match zmsg_popstr msg with
  | (event, msg) =>
  match zmsg_popstr msg with
  | (peer, msg) =>
  match zmsg_popstr msg with
  | (name, msg) =>
  match zmsg_popstr msg with
  | (group, msg) =>
  match zmsg_popstr msg with
  | (message, _) =>
  match peer, name with
  | some peer, some name =>
    let s1 := { s with uuid_to_name_map := mapAssign s.uuid_to_name_map peer name }
    match event with
    | none => .abort .nullPointer
    | some event =>
      if event = "SHOUT" then
        if s1.node_to_print = peer then
          match message with
          | some message => .next { s1 with cout := s1.cout ++ message ++ "\n" } false
          | none => .abort .nullPointer
        else
          match group with
          | none => .abort .nullPointer
          | some group =>
            if s1.group_to_print = group then
              match message with
              | some message => .next { s1 with cout := s1.cout ++ message ++ "\n" } false
              | none => .abort .nullPointer
            else .next s1 false
      else .next s1 false
  | _, _ => .abort .nullPointer

/-- The `if (which == pipe)` branch, lines 32-68, for a message that was
received. -/
def pipeBranch (s : LoopState) (msg : Zmsg) : Iter :=
  match zmsg_popstr msg with
  | (none, _) => .abort .nullPointer
  | (some command, msg) =>
    if command = "$TERM" then .next s true
    else if command = "PRINT SHOUTS FROM NODE" then
      match zmsg_popstr msg with
      | (none, _) => .abort .nullPointer
      | (some node_uuid, _) =>
        .next { s with node_to_print := node_uuid, group_to_print := "" } false
    else if command = "PRINT SHOUTS FROM GROUP" then
      match zmsg_popstr msg with
      | (none, _) => .abort .nullPointer
      | (some group_name, _) =>
        .next { s with group_to_print := group_name, node_to_print := "" } false
    else if command = "STOP PRINT" then
      .next { s with node_to_print := "", group_to_print := "" } false
    else .abort .invalidMessage

/-- The body of the loop of `receiveLoop`, entered with `terminated == false`. -/
def loopBody (s : LoopState) : Which → Iter
  | .pipe none => .brk s
  | .pipe (some msg) => pipeBranch s msg
  | .node none => .abort .nullPointer
  | .node (some msg) => nodeBranch s msg
  | .null => .next s false

/-- What has become of `receiveLoop` once a finite sequence of poll results
has been fed to it. -/
inductive Outcome where
  /-- The loop was left and `zpoller_destroy` reached. -/
  | exited (s : LoopState)
  /-- The loop is blocked in `zpoller_wait`: nothing is left to receive. -/
  | waiting (s : LoopState)
  | fault (f : Fault)
  deriving DecidableEq, Repr

/-- The loop `while (!terminated) { ... }` on the poll results still to come. -/
def loop : LoopState → Bool → List Which → Outcome
  | s, true, _ => .exited s
  | s, false, [] => .waiting s
  | s, false, w :: ws =>
    match loopBody s w with
    | .next s1 t => loop s1 t ws
    | .brk s1 => .exited s1
    | .abort f => .fault f

/-- The values of the variables when the loop is first entered. -/
def initState (uuid_to_name_map : NameMap) : LoopState :=
  { node_to_print := "", group_to_print := "",
    uuid_to_name_map := uuid_to_name_map, cout := "" }

/-- The actor `receiveLoop`, started on the current content of the global map. -/
def receiveLoop (uuid_to_name_map : NameMap) (polls : List Which) : Outcome :=
  loop (initState uuid_to_name_map) false polls

/-! ## The main thread: overlay queries, joins, leaves and sends -/

/-- One call of the main thread that is visible outside it. -/
inductive Call where
  | join (group : String)
  | leave (group : String)
  /-- A call `zstr_sendx (actor, frame, ..., NULL)`. -/
  | send (msg : Zmsg)
  deriving DecidableEq, Repr

/-- What the main thread's functions read and write.  The first four fields
are the answers of the zyre queries of the same names (`none` is a `NULL`
list), `own_groups` is the answer of `zyre_own_groups`, `uuid_to_name_map`
the global map, `calls` the joins, leaves and sends issued so far, oldest
first. -/
structure World where
  zyre_peers : List String
  zyre_peer_groups : Option (List String)
  zyre_peers_by_group : String → Option (List String)
  zyre_peer_address : String → String
  own_groups : List String
  uuid_to_name_map : NameMap
  calls : List Call
  cout : String
  cerr : String

/-- Modelled from the spec: the overlay's `join (group)`, which is code of the
zyre library and not of this repository.  The node becomes a member of the
group, a join of a group it is already in changes no membership, and the call
is recorded. -/
def zyre_join (w : World) (group : String) : World :=
  { w with
    own_groups := if group ∈ w.own_groups then w.own_groups else w.own_groups ++ [group],
    calls := w.calls ++ [.join group] }

/-- Modelled from the spec: the overlay's `leave (group)`, which is code of
the zyre library and not of this repository.  The group is removed from the
node's own groups and the call is recorded. -/
def zyre_leave (w : World) (group : String) : World :=
  { w with
    own_groups := w.own_groups.filter (fun g => g ≠ group),
    calls := w.calls ++ [.leave group] }

/-- The call `zstr_sendx (actor, frames..., NULL)`: the message is queued on the
actor's pipe. -/
def zstr_sendx (w : World) (msg : Zmsg) : World :=
  { w with calls := w.calls ++ [.send msg] }

/-- The messages queued on the actor's pipe, oldest first. -/
def sent : List Call → List Zmsg
  | [] => []
  | .send msg :: cs => msg :: sent cs
  | _ :: cs => sent cs

/-- The groups of the `zyre_join` calls, oldest first. -/
def joins : List Call → List String
  | [] => []
  | .join g :: cs => g :: joins cs
  | _ :: cs => joins cs

/-- The groups of the `zyre_leave` calls, oldest first. -/
def leaves : List Call → List String
  | [] => []
  | .leave g :: cs => g :: leaves cs
  | _ :: cs => leaves cs

/-- The loop of `printNodeList`, lines 123-134, over the peers popped from the
list: the line end is written in the branch of a known name only. -/
def printNodeListLoop (uuid_to_name_map : NameMap) : List String → String → String
  | [], cout => cout
  | peer_uuid :: peers, cout =>
    let cout := cout ++ "\t" ++ peer_uuid
    match mapFind uuid_to_name_map peer_uuid with
    | some name => printNodeListLoop uuid_to_name_map peers (cout ++ " (" ++ name ++ ")" ++ "\n")
    | none => printNodeListLoop uuid_to_name_map peers cout

/-- The function `printNodeList`. -/
def printNodeList (w : World) : World :=
  { w with cout := printNodeListLoop w.uuid_to_name_map w.zyre_peers w.cout }

/-- The inner loop of `getNodeGroups`, lines 161-169: one `push_back` of the
group for every popped peer that equals `uuid`. -/
def getNodeGroupsPeers (uuid group_name : String) : List String → List String → List String
  | [], peer_groups => peer_groups
  | peer_name :: peers, peer_groups =>
    getNodeGroupsPeers uuid group_name peers
      (if peer_name = uuid then peer_groups ++ [group_name] else peer_groups)

/-- The outer loop of `getNodeGroups`, lines 150-173: a group without a peer
list is skipped. -/
def getNodeGroupsLoop (w : World) (uuid : String) : List String → List String → List String
  | [], peer_groups => peer_groups
  | group_name :: groups, peer_groups =>
    match w.zyre_peers_by_group group_name with
    | none => getNodeGroupsLoop w uuid groups peer_groups
    | some peers =>
      getNodeGroupsLoop w uuid groups (getNodeGroupsPeers uuid group_name peers peer_groups)

/-- The function `getNodeGroups`: the vector it returns and the world after
it (a line is printed when the overlay has no group list). -/
def getNodeGroups (w : World) (uuid : String) : List String × World :=
  match w.zyre_peer_groups with
  | none => ([], { w with cout := w.cout ++ "No groups exist" ++ "\n" })
  | some groups => (getNodeGroupsLoop w uuid groups [], w)

/-- The loop of `printNodeInfo`, lines 198-205: the groups separated by
`", "`, nothing after the last one. -/
def printGroupsLoop : List String → String → String
  | [], cout => cout
  | [g], cout => cout ++ g
  | g :: g2 :: gs, cout => printGroupsLoop (g2 :: gs) (cout ++ g ++ ", ")

/-- The function `printNodeInfo`. -/
def printNodeInfo (w : World) (uuid : String) : World :=
  match mapFind w.uuid_to_name_map uuid with
  | some name =>
    let w := { w with cout := w.cout ++ "\tUUID: " ++ uuid ++ "\n" }
    let w := { w with cout := w.cout ++ "\tName: " ++ name ++ "\n" }
    let endpoint := w.zyre_peer_address uuid
    let w := { w with cout := w.cout ++ "\tEndpoint: " ++ endpoint ++ "\n" }
    match getNodeGroups w uuid with
    | (peer_groups, w) =>
      if peer_groups = [] then
        { w with cout := w.cout ++ "\tGroups: None" ++ "\n" }
      else
        { w with cout := printGroupsLoop peer_groups (w.cout ++ "\tGroups: ") ++ "\n" }
  | none => { w with cerr := w.cerr ++ "Peer " ++ uuid ++ " does not exist" ++ "\n" }

/-- The loop of `stopPrinting`, lines 221-226: one `zyre_leave` for every
group popped from the list `zyre_own_groups` returned. -/
def stopPrintingLoop : List String → World → World
  | [], w => w
  | group_name :: groups, w => stopPrintingLoop groups (zyre_leave w group_name)

/-- The function `stopPrinting`. -/
def stopPrinting (w : World) : World :=
  zstr_sendx (stopPrintingLoop w.own_groups w) ["STOP PRINT"]

/-- The loop of `printNodeShouts`, lines 236-239. -/
def printNodeShoutsLoop : List String → World → World
  | [], w => w
  | group :: peer_groups, w => printNodeShoutsLoop peer_groups (zyre_join w group)

/-- The function `printNodeShouts`. -/
def printNodeShouts (w : World) (uuid : String) : World :=
  match getNodeGroups w uuid with
  | (peer_groups, w) =>
    zstr_sendx (printNodeShoutsLoop peer_groups w) ["PRINT SHOUTS FROM NODE", uuid]

/-- The loop of `printGroupList`, lines 248-253. -/
def printGroupListLoop : List String → String → String
  | [], cout => cout
  | group_name :: groups, cout => printGroupListLoop groups (cout ++ "\t" ++ group_name ++ "\n")

/-- The function `printGroupList`; `zlist_size` asserts its argument, so the
`NULL` list is a fault (`none`). -/
def printGroupList (w : World) : Option World :=
  match w.zyre_peer_groups with
  | none => none
  | some groups => some { w with cout := printGroupListLoop groups w.cout }

/-- The loop of `printGroupInfo`, lines 268-273. -/
def printGroupInfoLoop : List String → String → String
  | [], cout => cout
  | peer_name :: peers, cout => printGroupInfoLoop peers (cout ++ "\t\t" ++ peer_name ++ "\n")

/-- The function `printGroupInfo`. -/
def printGroupInfo (w : World) (name : String) : World :=
  match w.zyre_peers_by_group name with
  | none => { w with cerr := w.cerr ++ "No group named " ++ name ++ "\n" }
  | some peers =>
    let size := peers.length
    let cout := w.cout ++ "\tGroup " ++ name ++ " has " ++ toString size ++
      (if size = 1 then " node" else " nodes") ++ "\n"
    { w with cout := printGroupInfoLoop peers cout }

/-- The function `printGroupShouts`. -/
def printGroupShouts (w : World) (name : String) : World :=
  zstr_sendx (zyre_join w name) ["PRINT SHOUTS FROM GROUP", name]

/-- The function `help`. -/
def help (w : World) : World :=
  { w with cout := w.cout ++ "Available commands: " ++ "\n"
      ++ "\tnode list" ++ "\n"
      ++ "\tgroup list" ++ "\n"
      ++ "\tnode info <uuid>" ++ "\n"
      ++ "\tgroup info <group name>" ++ "\n"
      ++ "\tnode listen <uuid>" ++ "\n"
      ++ "\tgroup listen <group name>" ++ "\n"
      ++ "\thelp" ++ "\n"
      ++ "\texit" ++ "\n" }

/-- How one pass through the body of the loop of `main` ends. -/
inductive MainIter where
  /-- The statement `continue`, or the end of the body. -/
  | next (w : World)
  /-- The statement `break`. -/
  | brk (w : World)
  /-- A failed assertion inside a library call. -/
  | abort

/-- The statement `std::cerr << "error" << std::endl; continue;`. -/
def reportError (w : World) : MainIter :=
  .next { w with cerr := w.cerr ++ "error" ++ "\n" }

/-- The body of the loop of `main`, lines 313-393, on the tokens `cmd` that
`getCommand` returned. -/
def mainBody (w : World) (cmd : List String) : MainIter :=
  match cmd with
  | [] => .next w
  | cmd0 :: args =>
    if cmd0 = "exit" ∨ cmd0 = "quit" ∨ cmd0 = "q" then .brk w
    else if cmd0 = "help" then .next (help w)
    else if cmd0 = "stop" then .next (stopPrinting w)
    else if cmd0 = "node" then
      match args with
      | [] => reportError w
      | cmd1 :: args =>
        if cmd1 = "list" then .next (printNodeList w)
        else if cmd1 = "info" then
          match args with
          | [] => reportError w
          | uuid :: _ => .next (printNodeInfo w uuid)
        else if cmd1 = "listen" then
          match args with
          | [] => reportError w
          | uuid :: _ => .next (printNodeShouts w uuid)
        else .next w
    else if cmd0 = "group" then
      match args with
      | [] => reportError w
      | cmd1 :: args =>
        if cmd1 = "list" then
          match printGroupList w with
          | some w => .next w
          | none => .abort
        else if cmd1 = "info" then
          match args with
          | [] => reportError w
          | name :: _ => .next (printGroupInfo w name)
        else if cmd1 = "listen" then
          match args with
          | [] => reportError w
          | name :: _ => .next (printGroupShouts w name)
        else .next w
    else .next w

/-- The loop of `main` on the command lines still to come, followed by the
`$TERM` sent to the actor once the loop is left (line 396); `none` is a
failed assertion. -/
def mainLoop : World → List (List String) → Option World
  | w, [] => some (zstr_sendx w ["$TERM"])
  | w, cmd :: cmds =>
    match mainBody w cmd with
    | .next w1 => mainLoop w1 cmds
    | .brk w1 => some (zstr_sendx w1 ["$TERM"])
    | .abort => none

/-! ## The vocabulary of the specification -/

/-- The specification's `FilterState`: nothing, one peer or one group is
being watched. -/
inductive FilterState where
  | Inactive
  | PeerScoped (id : String)
  | GroupScoped (name : String)
  deriving DecidableEq, Repr

/-- The value of `node_to_print` that stands for a filter state. -/
def FilterState.node_to_print : FilterState → String
  | .Inactive => ""
  | .PeerScoped id => id
  | .GroupScoped _ => ""

/-- The value of `group_to_print` that stands for a filter state. -/
def FilterState.group_to_print : FilterState → String
  | .Inactive => ""
  | .PeerScoped _ => ""
  | .GroupScoped name => name

/-- The specification's rule for a broadcast: it is printed iff the state is
`PeerScoped (id)` with `id` the sender, or `GroupScoped (name)` with `name`
the group of the event; `Inactive` never prints. -/
def FilterState.matches : FilterState → String → String → Bool
  | .Inactive, _, _ => false
  | .PeerScoped id, senderId, _ => decide (id = senderId)
  | .GroupScoped name, _, group => decide (name = group)

/-- A network event as the overlay delivers it: the event type, the sender's
id and name, and the frames that follow them (group and payload for a
`SHOUT`). -/
structure NetworkEvent where
  event : String
  peer : String
  name : String
  frames : List String
  deriving DecidableEq, Repr

/-- The message `zmsg_recv` returns for a network event. -/
def NetworkEvent.msg (e : NetworkEvent) : Zmsg :=
  e.event :: e.peer :: e.name :: e.frames

/-- The specification's `Broadcast` event: a `SHOUT` with group and payload. -/
def Broadcast (senderId senderName group payload : String) : NetworkEvent :=
  { event := "SHOUT", peer := senderId, name := senderName, frames := [group, payload] }

/-- A `SHOUT` carries its group and its payload; other events carry what
they like. -/
def NetworkEvent.wellFormed (e : NetworkEvent) : Prop :=
  e.event = "SHOUT" → 2 ≤ e.frames.length

instance (e : NetworkEvent) : Decidable e.wellFormed :=
  inferInstanceAs (Decidable (_ → _))

/-- What the loop of `receiveLoop` receives besides `$TERM`: the three watch
commands, as the main thread sends them, and network events. -/
inductive Input where
  | WatchPeer (id : String)
  | WatchGroup (name : String)
  | ClearWatch
  | Event (e : NetworkEvent)
  deriving DecidableEq, Repr

/-- The poll result that carries an input: the frames are those of the
`zstr_sendx` calls of `printNodeShouts`, `printGroupShouts` and
`stopPrinting`. -/
def Input.poll : Input → Which
  | .WatchPeer id => .pipe (some ["PRINT SHOUTS FROM NODE", id])
  | .WatchGroup name => .pipe (some ["PRINT SHOUTS FROM GROUP", name])
  | .ClearWatch => .pipe (some ["STOP PRINT"])
  | .Event e => .node (some e.msg)

/-- Every network event of the input is well formed. -/
def Input.wellFormed : Input → Prop
  | .Event e => e.wellFormed
  | _ => True

instance (i : Input) : Decidable i.wellFormed := by
  cases i <;> unfold Input.wellFormed <;> infer_instance

/-- The filter state named by the most recent watch command, on the inputs
listed newest first: network events are passed over, and nothing before the
most recent command is looked at. -/
def lastCommandRev : List Input → FilterState
  | [] => .Inactive
  | .WatchPeer id :: _ => .PeerScoped id
  | .WatchGroup name :: _ => .GroupScoped name
  | .ClearWatch :: _ => .Inactive
  | .Event _ :: is => lastCommandRev is

/-- The filter state named by the last watch command of a sequence of
inputs, `Inactive` when no command was processed. -/
def lastCommand (is : List Input) : FilterState :=
  lastCommandRev is.reverse

/-- The name carried by the most recent network event sent by `id`, on the
inputs listed newest first; `none` when `id` sent none. -/
def lastNameRev (id : String) : List Input → Option String
  | [] => none
  | .Event e :: is => if e.peer = id then some e.name else lastNameRev id is
  | _ :: is => lastNameRev id is

/-- The name carried by the most recent network event of the sequence that
was sent by `id`. -/
def lastName (id : String) (is : List Input) : Option String :=
  lastNameRev id is.reverse

/-- The text on `std::cout` after an iteration, `none` when the iteration
ended the process. -/
def Iter.cout : Iter → Option String
  | .next s _ => some s.cout
  | .brk s => some s.cout
  | .abort _ => none

/-- The iteration on poll result `w` from state `s` prints `payload`: it
ends with the line `payload` appended to `std::cout`. -/
def prints (s : LoopState) (w : Which) (payload : String) : Prop :=
  (loopBody s w).cout = some (s.cout ++ payload ++ "\n")

instance (s : LoopState) (w : Which) (payload : String) : Decidable (prints s w payload) :=
  inferInstanceAs (Decidable (_ = _))

/-- The state of `receiveLoop` whose two filter variables stand for the
filter state `fs`. -/
def FilterState.state (fs : FilterState) (uuid_to_name_map : NameMap) (cout : String) :
    LoopState :=
  { node_to_print := fs.node_to_print, group_to_print := fs.group_to_print,
    uuid_to_name_map := uuid_to_name_map, cout := cout }

/-- A poll result that ends the loop: a `NULL` message on the pipe (the
control source is closed) or a message whose command is `$TERM`. -/
def Which.isStop : Which → Bool
  | .pipe none => true
  | .pipe (some (command :: _)) => decide (command = "$TERM")
  | _ => false

/-- The per-event step: the body of the loop on one poll result, as a state
or the fault that ends the process. -/
def processEvent (s : LoopState) (w : Which) : Except Fault LoopState :=
  match loopBody s w with
  | .next s1 _ => .ok s1
  | .brk s1 => .ok s1
  | .abort f => .error f

/-- The per-event step folded over a sequence of poll results, first one
first, stopping at the first fault. -/
def foldEvents : LoopState → List Which → Except Fault LoopState
  | s, [] => .ok s
  | s, w :: ws =>
    match processEvent s w with
    | .ok s1 => foldEvents s1 ws
    | .error f => .error f

/-- The groups, in the order `groups`, whose member list holds `uuid`: each as
often as `uuid` occurs in its member list, a group without a member list not
at all. -/
def memberGroups (w : World) (uuid : String) : List String → List String
  | [] => []
  | g :: groups =>
    match w.zyre_peers_by_group g with
    | some peers => List.replicate (peers.count uuid) g ++ memberGroups w uuid groups
    | none => memberGroups w uuid groups

/-- The overlay lists `uuid` among the members of group `g`. -/
def isMember (w : World) (uuid g : String) : Bool :=
  match w.zyre_peers_by_group g with
  | some peers => decide (uuid ∈ peers)
  | none => false

/-- A small overlay for worked examples: peers `P1` and `P2`, group `G1`
with both, `G2` with `P2`, `G3` with `P1`; the node itself is in `G9`. -/
def exampleWorld : World :=
  { zyre_peers := ["P1", "P2"],
    zyre_peer_groups := some ["G1", "G2", "G3"],
    zyre_peers_by_group := fun g =>
      if g = "G1" then some ["P1", "P2"]
      else if g = "G2" then some ["P2"]
      else if g = "G3" then some ["P1"]
      else none,
    zyre_peer_address := fun _ => "tcp://10.0.0.1:49152",
    own_groups := ["G9"],
    uuid_to_name_map := [("P1", "Alice")],
    calls := [],
    cout := "",
    cerr := "" }

/-! ## Lemmas on strings, the directory and the loop -/

theorem append_line_ne (a b : String) : a ++ b ++ "\n" ≠ a := by
  intro h
  have hlen := congrArg String.length h
  have h1 : "\n".length = 1 := rfl
  simp only [String.length_append, h1] at hlen
  omega

theorem mapFind_mapAssign (m : NameMap) (k v key : String) :
    mapFind (mapAssign m k v) key = if k = key then some v else mapFind m key := by
  induction m with
  | nil => simp [mapAssign, mapFind]
  | cons p m ih =>
    obtain ⟨k1, v1⟩ := p
    by_cases h1 : k1 = k
    · subst h1
      by_cases h2 : k1 = key <;> simp [mapAssign, mapFind, h2]
    · by_cases h2 : k1 = key
      · subst h2
        have h3 : ¬ k = k1 := fun h => h1 h.symm
        simp [mapAssign, mapFind, h1, h3]
      · simp [mapAssign, mapFind, h1, h2, ih]

theorem mapAssign_mapAssign (m : NameMap) (k v : String) :
    mapAssign (mapAssign m k v) k v = mapAssign m k v := by
  induction m with
  | nil => simp [mapAssign]
  | cons p m ih =>
    obtain ⟨k1, v1⟩ := p
    by_cases h1 : k1 = k <;> simp [mapAssign, h1, ih]

theorem nodeBranch_shout (s : LoopState) (peer name group payload : String) :
    nodeBranch s ["SHOUT", peer, name, group, payload] =
      .next { s with
        uuid_to_name_map := mapAssign s.uuid_to_name_map peer name,
        cout := if s.node_to_print = peer ∨ s.group_to_print = group
          then s.cout ++ payload ++ "\n" else s.cout } false := by
  simp only [nodeBranch, zmsg_popstr]
  by_cases h1 : s.node_to_print = peer <;> by_cases h2 : s.group_to_print = group <;>
    simp [h1, h2]

theorem prints_shout_iff (s : LoopState) (peer name group payload : String) :
    prints s (.node (some ["SHOUT", peer, name, group, payload])) payload ↔
      (s.node_to_print = peer ∨ s.group_to_print = group) := by
  unfold prints
  simp only [loopBody, nodeBranch_shout, Iter.cout]
  by_cases h : s.node_to_print = peer ∨ s.group_to_print = group
  · simp [h]
  · simp only [h, if_false, iff_false]
    intro h1
    exact append_line_ne s.cout payload (Option.some.inj h1).symm

theorem loop_append (ws vs : List Which) :
    ∀ (s s1 : LoopState) (t : Bool), loop s t ws = .waiting s1 →
      loop s t (ws ++ vs) = loop s1 false vs := by
  induction ws with
  | nil =>
    intro s s1 t h
    cases t with
    | true => simp [loop] at h
    | false =>
      simp only [loop, Outcome.waiting.injEq] at h
      subst h
      rfl
  | cons w ws ih =>
    intro s s1 t h
    cases t with
    | true => simp [loop] at h
    | false =>
      simp only [loop, List.cons_append] at h ⊢
      cases hb : loopBody s w with
      | next s2 t2 =>
        rw [hb] at h
        exact ih s2 s1 t2 h
      | brk s2 => rw [hb] at h; simp at h
      | abort f => rw [hb] at h; simp at h

/-! ## C1: which broadcasts are printed -/

/-- C1, as stated, fails: in the `Inactive` state (`node_to_print` and
`group_to_print` both empty, as when the loop starts) the broadcast
`P1, Alice, "", hi`, whose group is the empty string, is printed, although
the rule of the claim says that `Inactive` prints nothing. -/
theorem C1_inactive_prints_empty_group :
    ¬ ∀ (fs : FilterState) (m : NameMap) (cout senderId senderName group payload : String),
      prints (fs.state m cout)
          (.node (some (Broadcast senderId senderName group payload).msg)) payload ↔
        fs.matches senderId group = true := by
  intro h
  have h1 := h .Inactive [] "" "P1" "Alice" "" "hi"
  revert h1
  decide

/-- C1, amended: a broadcast is printed iff `node_to_print` equals the
sender id or `group_to_print` equals the event's group, tested on the
variables as they are when the event is processed; for a broadcast whose
sender id and group are both non-empty that is the rule of the claim
(`PeerScoped (id)` with `id` the sender, or `GroupScoped (name)` with `name`
the group, and never in `Inactive`).  The scenario of the claim runs as it
says. -/
theorem C1_broadcast_printed_iff (fs : FilterState) (m : NameMap)
    (cout senderId senderName group payload : String) :
    (∀ s : LoopState,
      loopBody s (.node (some (Broadcast senderId senderName group payload).msg)) =
        .next { s with
          uuid_to_name_map := mapAssign s.uuid_to_name_map senderId senderName,
          cout := if s.node_to_print = senderId ∨ s.group_to_print = group
            then s.cout ++ payload ++ "\n" else s.cout } false) ∧
    (∀ s : LoopState,
      prints s (.node (some (Broadcast senderId senderName group payload).msg)) payload ↔
        (s.node_to_print = senderId ∨ s.group_to_print = group)) ∧
    (senderId ≠ "" → group ≠ "" →
      (prints (fs.state m cout)
          (.node (some (Broadcast senderId senderName group payload).msg)) payload ↔
        fs.matches senderId group = true)) ∧
    (∀ (s0 s : LoopState) (t : Bool) (pre : List Which), loop s0 t pre = .waiting s →
      loop s0 t (pre ++ [.node (some (Broadcast senderId senderName group payload).msg)]) =
        .waiting { s with
          uuid_to_name_map := mapAssign s.uuid_to_name_map senderId senderName,
          cout := if s.node_to_print = senderId ∨ s.group_to_print = group
            then s.cout ++ payload ++ "\n" else s.cout }) ∧
    receiveLoop [] [(Input.Event (Broadcast "P1" "Alice" "G1" "hi")).poll] =
      .waiting ⟨"", "", [("P1", "Alice")], ""⟩ ∧
    receiveLoop [] [(Input.Event (Broadcast "P1" "Alice" "G1" "hi")).poll,
        (Input.WatchGroup "G1").poll,
        (Input.Event (Broadcast "P1" "Alice" "G1" "hi")).poll] =
      .waiting ⟨"", "G1", [("P1", "Alice")], "hi\n"⟩ ∧
    receiveLoop [] [(Input.Event (Broadcast "P1" "Alice" "G1" "hi")).poll,
        (Input.WatchGroup "G1").poll,
        (Input.Event (Broadcast "P1" "Alice" "G1" "hi")).poll,
        (Input.WatchPeer "P2").poll,
        (Input.Event (Broadcast "P1" "Alice" "G1" "hi")).poll] =
      .waiting ⟨"P2", "", [("P1", "Alice")], "hi\n"⟩ := by
  have hbody : ∀ s : LoopState,
      loopBody s (.node (some (Broadcast senderId senderName group payload).msg)) =
        .next { s with
          uuid_to_name_map := mapAssign s.uuid_to_name_map senderId senderName,
          cout := if s.node_to_print = senderId ∨ s.group_to_print = group
            then s.cout ++ payload ++ "\n" else s.cout } false := by
    intro s
    simp only [loopBody, Broadcast, NetworkEvent.msg, nodeBranch_shout]
  refine ⟨hbody, ?_, ?_, ?_, by decide, by decide, by decide⟩
  · intro s
    simpa only [Broadcast, NetworkEvent.msg] using
      prints_shout_iff s senderId senderName group payload
  · intro h1 h2
    have h := prints_shout_iff (fs.state m cout) senderId senderName group payload
    simp only [Broadcast, NetworkEvent.msg]
    rw [h]
    cases fs with
    | Inactive =>
      simp only [FilterState.state, FilterState.node_to_print, FilterState.group_to_print,
        FilterState.matches]
      constructor
      · rintro (h | h)
        · exact absurd h.symm h1
        · exact absurd h.symm h2
      · intro h; simp at h
    | PeerScoped id =>
      simp only [FilterState.state, FilterState.node_to_print, FilterState.group_to_print,
        FilterState.matches, decide_eq_true_eq]
      constructor
      · rintro (h | h)
        · exact h
        · exact absurd h.symm h2
      · intro h; exact Or.inl h
    | GroupScoped name =>
      simp only [FilterState.state, FilterState.node_to_print, FilterState.group_to_print,
        FilterState.matches, decide_eq_true_eq]
      constructor
      · rintro (h | h)
        · exact absurd h.symm h1
        · exact h
      · intro h; exact Or.inr h
  · intro s0 s t pre h
    rw [loop_append pre _ s0 s t h]
    simp only [loop, hbody]

/-- C1, amended, at the claim's scenario: with `G1` watched, the broadcast
`P1, Alice, G1, hi` is printed. -/
theorem C1_broadcast_printed_iff_witness :
    "P1" ≠ "" ∧ "G1" ≠ "" ∧
    (prints ((FilterState.GroupScoped "G1").state [] "")
        (.node (some (Broadcast "P1" "Alice" "G1" "hi").msg)) "hi" ↔
      (FilterState.GroupScoped "G1").matches "P1" "G1" = true) :=
  ⟨by decide, by decide,
    (C1_broadcast_printed_iff (.GroupScoped "G1") [] "" "P1" "Alice" "G1" "hi").2.2.1
      (by decide) (by decide)⟩

/-! ## Running the loop on watch commands and network events -/

theorem loopBody_input (s : LoopState) (i : Input) :
    i.wellFormed → ∃ s1, loopBody s i.poll = .next s1 false ∧
      s1.node_to_print = (match i with
        | .WatchPeer id => id
        | .WatchGroup _ => ""
        | .ClearWatch => ""
        | .Event _ => s.node_to_print) ∧
      s1.group_to_print = (match i with
        | .WatchPeer _ => ""
        | .WatchGroup name => name
        | .ClearWatch => ""
        | .Event _ => s.group_to_print) ∧
      s1.uuid_to_name_map = (match i with
        | .Event e => mapAssign s.uuid_to_name_map e.peer e.name
        | _ => s.uuid_to_name_map) := by
  intro h
  cases i with
  | WatchPeer id =>
    exact ⟨{ s with node_to_print := id, group_to_print := "" },
      by simp [Input.poll, loopBody, pipeBranch, zmsg_popstr], rfl, rfl, rfl⟩
  | WatchGroup name =>
    exact ⟨{ s with group_to_print := name, node_to_print := "" },
      by simp [Input.poll, loopBody, pipeBranch, zmsg_popstr], rfl, rfl, rfl⟩
  | ClearWatch =>
    exact ⟨{ s with node_to_print := "", group_to_print := "" },
      by simp [Input.poll, loopBody, pipeBranch, zmsg_popstr], rfl, rfl, rfl⟩
  | Event e =>
    obtain ⟨event, peer, name, frames⟩ := e
    by_cases hs : event = "SHOUT"
    · have hlen : 2 ≤ frames.length := h hs
      match frames, hlen with
      | group :: payload :: rest, _ =>
        subst hs
        by_cases h1 : s.node_to_print = peer <;> by_cases h2 : s.group_to_print = group <;>
          simp [Input.poll, loopBody, nodeBranch, zmsg_popstr, NetworkEvent.msg, h1, h2]
    · cases frames with
      | nil => simp [Input.poll, loopBody, nodeBranch, zmsg_popstr, NetworkEvent.msg, hs]
      | cons f1 fs =>
        cases fs with
        | nil => simp [Input.poll, loopBody, nodeBranch, zmsg_popstr, NetworkEvent.msg, hs]
        | cons f2 fs =>
          simp [Input.poll, loopBody, nodeBranch, zmsg_popstr, NetworkEvent.msg, hs]

theorem run_inputs (m : NameMap) (is : List Input) (h : ∀ i ∈ is, i.wellFormed) :
    ∃ s, receiveLoop m (is.map Input.poll) = .waiting s ∧
      s.node_to_print = (lastCommand is).node_to_print ∧
      s.group_to_print = (lastCommand is).group_to_print ∧
      ∀ id, mapFind s.uuid_to_name_map id =
        (match lastName id is with
          | some name => some name
          | none => mapFind m id) := by
  induction is using List.reverseRecOn with
  | nil => exact ⟨initState m, rfl, rfl, rfl, fun id => rfl⟩
  | append_singleton is i ih =>
    obtain ⟨s, hrun, hn, hg, hm⟩ := ih (fun j hj => h j (List.mem_append_left _ hj))
    obtain ⟨s1, hb, hn1, hg1, hm1⟩ :=
      loopBody_input s i (h i (List.mem_append_right _ (List.mem_singleton_self i)))
    refine ⟨s1, ?_, ?_, ?_, ?_⟩
    · unfold receiveLoop at hrun ⊢
      rw [List.map_append, loop_append _ _ _ _ _ hrun]
      simp [loop, hb]
    · rw [hn1]
      cases i <;>
        simp [lastCommand, lastCommandRev, List.reverse_append, FilterState.node_to_print]
      simpa [lastCommand] using hn
    · rw [hg1]
      cases i <;>
        simp [lastCommand, lastCommandRev, List.reverse_append, FilterState.group_to_print]
      simpa [lastCommand] using hg
    · intro id
      rw [hm1]
      have hid := hm id
      cases i with
      | Event e =>
        simp only [lastName, List.reverse_append, List.reverse_cons, List.reverse_nil,
          List.nil_append, List.singleton_append, lastNameRev, mapFind_mapAssign]
        by_cases he : e.peer = id
        · simp [he]
        · simpa [he, lastName] using hid
      | WatchPeer _ => simpa [lastName, List.reverse_append, lastNameRev] using hid
      | WatchGroup _ => simpa [lastName, List.reverse_append, lastNameRev] using hid
      | ClearWatch => simpa [lastName, List.reverse_append, lastNameRev] using hid

theorem lastNameRev_eq_none (id : String) (js : List Input) :
    lastNameRev id js = none ↔ ∀ e, Input.Event e ∈ js → e.peer ≠ id := by
  induction js with
  | nil => simp [lastNameRev]
  | cons j js ih =>
    cases j with
    | Event e1 =>
      by_cases he : e1.peer = id
      · simp only [lastNameRev, he, if_true, List.mem_cons, Input.Event.injEq]
        constructor
        · intro hsome
          exact absurd hsome (by simp)
        · intro hall
          exact absurd he (hall e1 (Or.inl rfl))
      · simp only [lastNameRev, he, if_false, ih, List.mem_cons, Input.Event.injEq]
        constructor
        · rintro hall e (rfl | hmem)
          · exact he
          · exact hall e hmem
        · intro hall e hmem
          exact hall e (Or.inr hmem)
    | WatchPeer _ => simp [lastNameRev, ih]
    | WatchGroup _ => simp [lastNameRev, ih]
    | ClearWatch => simp [lastNameRev, ih]

theorem lastName_eq_none (id : String) (js : List Input) :
    lastName id js = none ↔ ∀ e, Input.Event e ∈ js → e.peer ≠ id := by
  simp [lastName, lastNameRev_eq_none]

theorem mem_take_of_le {α : Type} (l : List α) (n k : Nat) (hnk : n ≤ k) (a : α)
    (ha : a ∈ l.take n) : a ∈ l.take k := by
  have h1 : l.take n = (l.take k).take n := by
    rw [List.take_take, Nat.min_eq_left hnk]
  rw [h1] at ha
  exact List.mem_of_mem_take ha

/-! ## C2: the filter state is the one of the last command -/

/-- C2: on every sequence of watch commands and (well-formed) network events,
the loop is still running after each step, `node_to_print` and
`group_to_print` then stand for the filter state named by the last command
processed so far (`Inactive` when there was none), and they are never both
non-empty.  The last command alone decides: `lastCommand` of a sequence ending
in a command is that command's state, and a network event leaves it as it
was. -/
theorem C2_filter_is_last_command (m : NameMap) (is : List Input)
    (h : ∀ i ∈ is, i.wellFormed) (n : Nat) :
    (∃ s, receiveLoop m ((is.take n).map Input.poll) = .waiting s ∧
      s.node_to_print = (lastCommand (is.take n)).node_to_print ∧
      s.group_to_print = (lastCommand (is.take n)).group_to_print ∧
      ¬ (s.node_to_print ≠ "" ∧ s.group_to_print ≠ "")) ∧
    lastCommand [] = .Inactive ∧
    (∀ (js : List Input) (id : String), lastCommand (js ++ [.WatchPeer id]) = .PeerScoped id) ∧
    (∀ (js : List Input) (name : String),
      lastCommand (js ++ [.WatchGroup name]) = .GroupScoped name) ∧
    (∀ js : List Input, lastCommand (js ++ [.ClearWatch]) = .Inactive) ∧
    (∀ (js : List Input) (e : NetworkEvent), lastCommand (js ++ [.Event e]) = lastCommand js) := by
  refine ⟨?_, rfl, ?_, ?_, ?_, ?_⟩
  · obtain ⟨s, hrun, hn, hg, _⟩ :=
      run_inputs m (is.take n) (fun i hi => h i (List.mem_of_mem_take hi))
    refine ⟨s, hrun, hn, hg, ?_⟩
    rw [hn, hg]
    cases lastCommand (is.take n) <;>
      simp [FilterState.node_to_print, FilterState.group_to_print]
  · intro js id; simp [lastCommand, lastCommandRev]
  · intro js name; simp [lastCommand, lastCommandRev]
  · intro js; simp [lastCommand, lastCommandRev]
  · intro js e; simp [lastCommand, lastCommandRev]

/-- C2 on a group watch, a broadcast and a peer watch: `P2` is watched in
the end, and no group. -/
theorem C2_filter_is_last_command_witness :
    (∀ i ∈ [Input.WatchGroup "G1", .Event (Broadcast "P1" "Alice" "G1" "hi"), .WatchPeer "P2"],
      i.wellFormed) ∧
    ∃ s, receiveLoop [] (([Input.WatchGroup "G1", .Event (Broadcast "P1" "Alice" "G1" "hi"),
          .WatchPeer "P2"].take 3).map Input.poll) = .waiting s ∧
      s.node_to_print = (lastCommand ([Input.WatchGroup "G1",
        .Event (Broadcast "P1" "Alice" "G1" "hi"), .WatchPeer "P2"].take 3)).node_to_print ∧
      s.group_to_print = (lastCommand ([Input.WatchGroup "G1",
        .Event (Broadcast "P1" "Alice" "G1" "hi"), .WatchPeer "P2"].take 3)).group_to_print ∧
      ¬ (s.node_to_print ≠ "" ∧ s.group_to_print ≠ "") :=
  ⟨by decide,
    (C2_filter_is_last_command []
      [Input.WatchGroup "G1", .Event (Broadcast "P1" "Alice" "G1" "hi"), .WatchPeer "P2"]
      (by decide) 3).1⟩

/-! ## C3: the directory holds the last name of every sender -/

/-- C3: on every sequence of watch commands and (well-formed) network events
of any type, started on an empty map, the loop is still running after each
step and a lookup of `id` then finds the name carried by the most recent event
sent by `id`, and nothing when `id` sent no event; an id found after `n`
steps is still found after `k ≥ n` steps; a watch command leaves the map as
it was, and so does `$TERM`; assigning the same pair twice is the same as
assigning it once, and an assignment overwrites the name of its own id
only. -/
theorem C3_directory_last_write_wins (is : List Input) (h : ∀ i ∈ is, i.wellFormed) :
    (∀ n, ∃ s, receiveLoop [] ((is.take n).map Input.poll) = .waiting s ∧
      ∀ id, mapFind s.uuid_to_name_map id = lastName id (is.take n)) ∧
    (∀ (n k : Nat) (sn sk : LoopState) (id : String), n ≤ k →
      receiveLoop [] ((is.take n).map Input.poll) = .waiting sn →
      receiveLoop [] ((is.take k).map Input.poll) = .waiting sk →
      mapFind sn.uuid_to_name_map id ≠ none → mapFind sk.uuid_to_name_map id ≠ none) ∧
    (∀ (s : LoopState) (i : Input), (∀ e, i ≠ .Event e) →
      ∃ s1, loopBody s i.poll = .next s1 false ∧ s1.uuid_to_name_map = s.uuid_to_name_map) ∧
    (∀ (s : LoopState) (frames : Zmsg),
      loopBody s (.pipe (some ("$TERM" :: frames))) = .next s true) ∧
    (∀ (m : NameMap) (id name : String),
      mapAssign (mapAssign m id name) id name = mapAssign m id name) ∧
    (∀ (m : NameMap) (id name id2 : String),
      mapFind (mapAssign m id name) id2 = if id = id2 then some name else mapFind m id2) ∧
    (∀ (js : List Input) (id : String),
      lastName id js = none ↔ ∀ e, Input.Event e ∈ js → e.peer ≠ id) ∧
    (∀ (js : List Input) (e : NetworkEvent), lastName e.peer (js ++ [.Event e]) = some e.name) ∧
    (∀ (js : List Input) (e : NetworkEvent) (id : String), e.peer ≠ id →
      lastName id (js ++ [.Event e]) = lastName id js) ∧
    (∀ (js : List Input) (i : Input) (id : String), (∀ e, i ≠ .Event e) →
      lastName id (js ++ [i]) = lastName id js) := by
  have hrun : ∀ n, ∃ s, receiveLoop [] ((is.take n).map Input.poll) = .waiting s ∧
      ∀ id, mapFind s.uuid_to_name_map id = lastName id (is.take n) := by
    intro n
    obtain ⟨s, hs, _, _, hm⟩ :=
      run_inputs [] (is.take n) (fun i hi => h i (List.mem_of_mem_take hi))
    refine ⟨s, hs, fun id => ?_⟩
    rw [hm id]
    cases lastName id (is.take n) <;> simp [mapFind]
  refine ⟨hrun, ?_, ?_, fun s frames => rfl, mapAssign_mapAssign, mapFind_mapAssign, ?_, ?_, ?_, ?_⟩
  · intro n k sn sk id hnk hsn hsk hfound
    obtain ⟨s1, h1, hm1⟩ := hrun n
    obtain ⟨s2, h2, hm2⟩ := hrun k
    rw [hsn] at h1
    rw [hsk] at h2
    obtain rfl : sn = s1 := Outcome.waiting.inj h1
    obtain rfl : sk = s2 := Outcome.waiting.inj h2
    rw [hm1 id] at hfound
    rw [hm2 id]
    intro hnone
    apply hfound
    rw [lastName_eq_none] at hnone ⊢
    intro e he
    exact hnone e (mem_take_of_le is n k hnk _ he)
  · intro s i hi
    cases i with
    | Event e => exact absurd rfl (hi e)
    | WatchPeer id =>
      obtain ⟨s1, hb, _, _, hm⟩ := loopBody_input s (.WatchPeer id) trivial
      exact ⟨s1, hb, hm⟩
    | WatchGroup name =>
      obtain ⟨s1, hb, _, _, hm⟩ := loopBody_input s (.WatchGroup name) trivial
      exact ⟨s1, hb, hm⟩
    | ClearWatch =>
      obtain ⟨s1, hb, _, _, hm⟩ := loopBody_input s .ClearWatch trivial
      exact ⟨s1, hb, hm⟩
  · exact fun js id => lastName_eq_none id js
  · intro js e; simp [lastName, lastNameRev]
  · intro js e id he; simp [lastName, lastNameRev, he]
  · intro js i id hi
    cases i with
    | Event e => exact absurd rfl (hi e)
    | WatchPeer _ => simp [lastName, lastNameRev]
    | WatchGroup _ => simp [lastName, lastNameRev]
    | ClearWatch => simp [lastName, lastNameRev]

/-- C3 on two events of `P1` under two names with a watch command between
them: after all three steps `P1` is found under its second name. -/
theorem C3_directory_last_write_wins_witness :
    (∀ i ∈ [Input.Event (Broadcast "P1" "Alice" "G1" "hi"), .WatchGroup "G1",
      .Event ⟨"JOIN", "P1", "Alicia", ["G2"]⟩], i.wellFormed) ∧
    ∃ s, receiveLoop [] (([Input.Event (Broadcast "P1" "Alice" "G1" "hi"), .WatchGroup "G1",
        .Event ⟨"JOIN", "P1", "Alicia", ["G2"]⟩].take 3).map Input.poll) = .waiting s ∧
      ∀ id, mapFind s.uuid_to_name_map id =
        lastName id ([Input.Event (Broadcast "P1" "Alice" "G1" "hi"), .WatchGroup "G1",
          .Event ⟨"JOIN", "P1", "Alicia", ["G2"]⟩].take 3) :=
  ⟨by decide,
    (C3_directory_last_write_wins
      [Input.Event (Broadcast "P1" "Alice" "G1" "hi"), .WatchGroup "G1",
        .Event ⟨"JOIN", "P1", "Alicia", ["G2"]⟩] (by decide)).1 3⟩

/-! ## C4: a `NULL` message on the overlay socket -/

/-- C4 fails on the code: when `zmsg_recv` on the overlay socket yields no
message, the iteration passes the `NULL` message on to `zmsg_popstr` and the
process faults, whatever the state and whatever would have come next; only
the pipe branch tests the message and leaves the loop with the state as it
was.  A poll that returns neither socket is passed over and the loop goes on
with what comes next. -/
theorem C4_null_overlay_message_faults (s : LoopState) (ws : List Which) :
    loop s false (.node none :: ws) = .fault .nullPointer ∧
    loop s false (.pipe none :: ws) = .exited s ∧
    loop s false (.null :: ws) = loop s false ws := by
  refine ⟨rfl, rfl, rfl⟩

/-! ## C5: the loop runs up to the first stop -/

theorem loop_until_stop (pre : List Which) (hpre : ∀ w ∈ pre, w.isStop = false) :
    ∀ s : LoopState,
      (∀ (stop : Which) (post : List Which), stop.isStop = true →
        loop s false (pre ++ stop :: post) =
          (match foldEvents s pre with
            | .ok s1 => .exited s1
            | .error f => .fault f)) ∧
      loop s false pre =
        (match foldEvents s pre with
          | .ok s1 => .waiting s1
          | .error f => .fault f) := by
  induction pre with
  | nil =>
    intro s
    refine ⟨?_, rfl⟩
    intro stop post hstop
    cases stop with
    | pipe msg =>
      cases msg with
      | none => rfl
      | some msg =>
        cases msg with
        | nil => simp [Which.isStop] at hstop
        | cons command frames =>
          have hc : command = "$TERM" := by simpa [Which.isStop] using hstop
          subst hc
          simp [loop, loopBody, pipeBranch, zmsg_popstr, foldEvents]
    | node msg => simp [Which.isStop] at hstop
    | null => simp [Which.isStop] at hstop
  | cons w pre ih =>
    intro s
    have hw : w.isStop = false := hpre w (List.mem_cons_self _ _)
    have ih1 := ih (fun v hv => hpre v (List.mem_cons_of_mem _ hv))
    cases hb : loopBody s w with
    | next s1 t =>
      have ht : t = false := by
        cases w with
        | pipe msg =>
          cases msg with
          | none => simp [loopBody] at hb
          | some msg =>
            cases msg with
            | nil => simp [loopBody, pipeBranch, zmsg_popstr] at hb
            | cons command frames =>
              have hc : ¬ command = "$TERM" := by simpa [Which.isStop] using hw
              simp only [loopBody, pipeBranch, zmsg_popstr, hc, if_false] at hb
              split at hb
              · split at hb
                · simp at hb
                · simp only [Iter.next.injEq] at hb; exact hb.2.symm
              · split at hb
                · split at hb
                  · simp at hb
                  · simp only [Iter.next.injEq] at hb; exact hb.2.symm
                · split at hb
                  · simp only [Iter.next.injEq] at hb; exact hb.2.symm
                  · simp at hb
        | node msg =>
          cases msg with
          | none => simp [loopBody] at hb
          | some msg =>
            simp only [loopBody, nodeBranch] at hb
            repeat' split at hb
            all_goals first
              | (simp only [Iter.next.injEq] at hb; exact hb.2.symm)
              | simp at hb
        | null => simp only [loopBody, Iter.next.injEq] at hb; exact hb.2.symm
      subst ht
      obtain ⟨ih2, ih3⟩ := ih1 s1
      refine ⟨?_, ?_⟩
      · intro stop post hstop
        simp only [List.cons_append, loop, hb, foldEvents, processEvent]
        exact ih2 stop post hstop
      · simp only [loop, hb, foldEvents, processEvent]
        exact ih3
    | brk s1 =>
      exfalso
      cases w with
      | pipe msg =>
        cases msg with
        | none => simp [Which.isStop] at hw
        | some msg =>
          simp only [loopBody, pipeBranch] at hb
          repeat' split at hb
          all_goals simp at hb
      | node msg =>
        cases msg with
        | none => simp [loopBody] at hb
        | some msg =>
          simp only [loopBody, nodeBranch] at hb
          repeat' split at hb
          all_goals simp at hb
      | null => simp [loopBody] at hb
    | abort f =>
      refine ⟨?_, ?_⟩
      · intro stop post hstop
        simp only [List.cons_append, loop, hb, foldEvents, processEvent]
      · simp only [loop, hb, foldEvents, processEvent]

/-- C5: on every sequence of poll results, the loop handles the results
before the first stop (a `$TERM` command or a `NULL` message on the pipe) one
after the other and nothing after it: it is left in the state that folding
the per-event step over those results gives (and the process has ended in
that fold's fault if one of them faults), whatever follows the stop; a closed
control source and a `$TERM` leave the loop in the same way; without a stop
the loop is not left but waits in that state. -/
theorem C5_loop_runs_to_first_stop (s : LoopState) (pre : List Which)
    (hpre : ∀ w ∈ pre, w.isStop = false) :
    (∀ (stop : Which) (post : List Which), stop.isStop = true →
      loop s false (pre ++ stop :: post) =
        (match foldEvents s pre with
          | .ok s1 => .exited s1
          | .error f => .fault f)) ∧
    (∀ (frames : Zmsg) (post1 post2 : List Which),
      loop s false (pre ++ .pipe none :: post1) =
        loop s false (pre ++ .pipe (some ("$TERM" :: frames)) :: post2)) ∧
    loop s false pre =
      (match foldEvents s pre with
        | .ok s1 => .waiting s1
        | .error f => .fault f) ∧
    (∀ w : Which, w.isStop = true ↔
      (w = .pipe none ∨ ∃ frames, w = .pipe (some ("$TERM" :: frames)))) := by
  obtain ⟨h1, h2⟩ := loop_until_stop pre hpre s
  refine ⟨h1, ?_, h2, ?_⟩
  · intro frames post1 post2
    rw [h1 (.pipe none) post1 rfl,
      h1 (.pipe (some ("$TERM" :: frames))) post2 (by simp [Which.isStop])]
  · intro w
    cases w with
    | pipe msg =>
      cases msg with
      | none => simp [Which.isStop]
      | some msg =>
        cases msg with
        | nil => simp [Which.isStop]
        | cons command frames => simp [Which.isStop]
    | node msg => simp [Which.isStop]
    | null => simp [Which.isStop]

/-- C5 on a group watch and a broadcast followed by a closed pipe and one
more broadcast: the loop is left with `hi` printed once. -/
theorem C5_loop_runs_to_first_stop_witness :
    (∀ w ∈ [(Input.WatchGroup "G1").poll, (Input.Event (Broadcast "P1" "Alice" "G1" "hi")).poll],
      w.isStop = false) ∧
    loop (initState []) false
        ([(Input.WatchGroup "G1").poll, (Input.Event (Broadcast "P1" "Alice" "G1" "hi")).poll] ++
          .pipe none :: [(Input.Event (Broadcast "P1" "Alice" "G1" "hi")).poll]) =
      (match foldEvents (initState [])
          [(Input.WatchGroup "G1").poll,
            (Input.Event (Broadcast "P1" "Alice" "G1" "hi")).poll] with
        | .ok s1 => .exited s1
        | .error f => .fault f) ∧
    foldEvents (initState [])
        [(Input.WatchGroup "G1").poll, (Input.Event (Broadcast "P1" "Alice" "G1" "hi")).poll] =
      .ok ⟨"", "G1", [("P1", "Alice")], "hi\n"⟩ :=
  ⟨by decide,
    (C5_loop_runs_to_first_stop (initState [])
      [(Input.WatchGroup "G1").poll, (Input.Event (Broadcast "P1" "Alice" "G1" "hi")).poll]
      (by decide)).1 (.pipe none) [(Input.Event (Broadcast "P1" "Alice" "G1" "hi")).poll] rfl,
    rfl⟩

/-! ## C8: unrecognized commands -/

/-- C8: a control message reaches the `assert (false)` branch iff its command
is none of `$TERM`, `PRINT SHOUTS FROM NODE`, `PRINT SHOUTS FROM GROUP` and
`STOP PRINT`; the process then ends there, with nothing that follows being
processed. -/
theorem C8_assert_iff_unrecognized (s : LoopState) (command : String) (frames : Zmsg) :
    (loopBody s (.pipe (some (command :: frames))) = .abort .invalidMessage ↔
      command ∉ ["$TERM", "PRINT SHOUTS FROM NODE", "PRINT SHOUTS FROM GROUP", "STOP PRINT"]) ∧
    (command ∉ ["$TERM", "PRINT SHOUTS FROM NODE", "PRINT SHOUTS FROM GROUP", "STOP PRINT"] →
      ∀ ws, loop s false (.pipe (some (command :: frames)) :: ws) = .fault .invalidMessage) := by
  have hiff : loopBody s (.pipe (some (command :: frames))) = .abort .invalidMessage ↔
      command ∉ ["$TERM", "PRINT SHOUTS FROM NODE", "PRINT SHOUTS FROM GROUP", "STOP PRINT"] := by
    by_cases h1 : command = "$TERM"
    · simp [loopBody, pipeBranch, zmsg_popstr, h1]
    · by_cases h2 : command = "PRINT SHOUTS FROM NODE"
      · cases frames <;> simp [loopBody, pipeBranch, zmsg_popstr, h2]
      · by_cases h3 : command = "PRINT SHOUTS FROM GROUP"
        · cases frames <;> simp [loopBody, pipeBranch, zmsg_popstr, h3]
        · by_cases h4 : command = "STOP PRINT"
          · simp [loopBody, pipeBranch, zmsg_popstr, h4]
          · simp [loopBody, pipeBranch, zmsg_popstr, h1, h2, h3, h4]
  refine ⟨hiff, ?_⟩
  intro h ws
  simp only [loop, hiff.mpr h]

/-- C8 on the command `BOGUS`, sent before a `STOP PRINT`: the process ends
in the assertion. -/
theorem C8_assert_iff_unrecognized_witness :
    "BOGUS" ∉ ["$TERM", "PRINT SHOUTS FROM NODE", "PRINT SHOUTS FROM GROUP", "STOP PRINT"] ∧
    loop (initState []) false [.pipe (some ("BOGUS" :: [])), .pipe (some ["STOP PRINT"])] =
      .fault .invalidMessage :=
  ⟨by decide,
    (C8_assert_iff_unrecognized (initState []) "BOGUS" []).2 (by decide)
      [.pipe (some ["STOP PRINT"])]⟩

/-! ## The main thread's loops -/

theorem getNodeGroupsPeers_eq (uuid group_name : String) (peers : List String) :
    ∀ peer_groups : List String,
      getNodeGroupsPeers uuid group_name peers peer_groups =
        peer_groups ++ List.replicate (peers.count uuid) group_name := by
  induction peers with
  | nil => intro acc; simp [getNodeGroupsPeers]
  | cons p peers ih =>
    intro acc
    by_cases hp : p = uuid
    · subst hp
      simp [getNodeGroupsPeers, ih, List.replicate_succ]
    · have hne : (p == uuid) = false := by simpa using hp
      simp [getNodeGroupsPeers, ih, hp, List.count_cons, hne]

theorem getNodeGroupsLoop_eq (w : World) (uuid : String) (groups : List String) :
    ∀ peer_groups : List String,
      getNodeGroupsLoop w uuid groups peer_groups = peer_groups ++ memberGroups w uuid groups := by
  induction groups with
  | nil => intro acc; simp [getNodeGroupsLoop, memberGroups]
  | cons g groups ih =>
    intro acc
    cases hg : w.zyre_peers_by_group g with
    | none => simp [getNodeGroupsLoop, memberGroups, hg, ih]
    | some peers =>
      simp [getNodeGroupsLoop, memberGroups, hg, ih, getNodeGroupsPeers_eq]

theorem mem_memberGroups (w : World) (uuid g : String) (groups : List String) :
    g ∈ memberGroups w uuid groups ↔
      g ∈ groups ∧ ∃ peers, w.zyre_peers_by_group g = some peers ∧ uuid ∈ peers := by
  induction groups with
  | nil => simp [memberGroups]
  | cons g1 groups ih =>
    cases hg : w.zyre_peers_by_group g1 with
    | none =>
      simp only [memberGroups, hg, ih, List.mem_cons]
      constructor
      · rintro ⟨h1, h2⟩
        exact ⟨Or.inr h1, h2⟩
      · rintro ⟨h1 | h1, peers, h2, h3⟩
        · subst h1
          rw [hg] at h2
          exact absurd h2 (by simp)
        · exact ⟨h1, peers, h2, h3⟩
    | some peers1 =>
      simp only [memberGroups, hg, List.mem_append, List.mem_replicate, ih, List.mem_cons]
      constructor
      · rintro (⟨h1, h2⟩ | ⟨h1, h2⟩)
        · subst h2
          exact ⟨Or.inl rfl, peers1, hg, List.count_pos_iff.mp (Nat.pos_of_ne_zero h1)⟩
        · exact ⟨Or.inr h1, h2⟩
      · rintro ⟨h1 | h1, peers, h2, h3⟩
        · subst h1
          rw [hg] at h2
          obtain rfl : peers1 = peers := Option.some.inj h2
          exact Or.inl ⟨Nat.ne_of_gt (List.count_pos_iff.mpr h3), rfl⟩
        · exact Or.inr ⟨h1, peers, h2, h3⟩

theorem memberGroups_eq_filter (w : World) (uuid : String)
    (hnodup : ∀ g peers, w.zyre_peers_by_group g = some peers → peers.Nodup)
    (groups : List String) :
    memberGroups w uuid groups = groups.filter (isMember w uuid) := by
  induction groups with
  | nil => simp [memberGroups]
  | cons g groups ih =>
    cases hg : w.zyre_peers_by_group g with
    | none => simp [memberGroups, hg, ih, isMember, List.filter_cons]
    | some peers =>
      have hcount := List.count_eq_of_nodup (a := uuid) (hnodup g peers hg)
      by_cases hmem : uuid ∈ peers
      · simp [memberGroups, hg, ih, isMember, List.filter_cons, hcount, hmem]
      · simp [memberGroups, hg, ih, isMember, List.filter_cons, hcount, hmem]

theorem printNodeShoutsLoop_calls (groups : List String) :
    ∀ w : World, (printNodeShoutsLoop groups w).calls = w.calls ++ groups.map Call.join := by
  induction groups with
  | nil => intro w; simp [printNodeShoutsLoop]
  | cons g groups ih => intro w; simp [printNodeShoutsLoop, ih, zyre_join]

theorem printNodeShoutsLoop_own_groups (groups : List String) :
    ∀ (w : World) (g : String),
      g ∈ (printNodeShoutsLoop groups w).own_groups ↔ g ∈ w.own_groups ∨ g ∈ groups := by
  induction groups with
  | nil => intro w g; simp [printNodeShoutsLoop]
  | cons g1 groups ih =>
    intro w g
    rw [printNodeShoutsLoop, ih]
    by_cases h : g1 ∈ w.own_groups
    · simp only [zyre_join, h, if_true, List.mem_cons]
      constructor
      · rintro (h1 | h1)
        · exact Or.inl h1
        · exact Or.inr (Or.inr h1)
      · rintro (h1 | h1 | h1)
        · exact Or.inl h1
        · subst h1; exact Or.inl h
        · exact Or.inr h1
    · simp only [zyre_join, h, if_false, List.mem_append, List.mem_singleton, List.mem_cons]
      tauto

theorem stopPrintingLoop_calls (groups : List String) :
    ∀ w : World, (stopPrintingLoop groups w).calls = w.calls ++ groups.map Call.leave := by
  induction groups with
  | nil => intro w; simp [stopPrintingLoop]
  | cons g groups ih => intro w; simp [stopPrintingLoop, ih, zyre_leave]

theorem stopPrintingLoop_own_groups (groups : List String) :
    ∀ w : World, (stopPrintingLoop groups w).own_groups =
      w.own_groups.filter (fun g => decide (g ∉ groups)) := by
  induction groups with
  | nil => intro w; simp [stopPrintingLoop]
  | cons g1 groups ih =>
    intro w
    rw [stopPrintingLoop, ih]
    simp only [zyre_leave, List.filter_filter]
    apply List.filter_congr
    intro g _
    simp only [List.mem_cons, not_or]
    by_cases h1 : g = g1 <;> by_cases h2 : g ∈ groups <;> simp [h1, h2]

/-! ## C6: watching a peer joins the groups it is in -/

/-- C6: `getNodeGroups` returns the groups whose member list holds the peer
id, in the overlay's order and nothing else (each once when member lists
have no duplicates); `printNodeShouts` issues one join per returned group,
none when nothing is returned or no group list exists, all of them before the
`PRINT SHOUTS FROM NODE` command is sent, after which the node is in each of
those groups; and once the loop has processed the command, a broadcast sent
by that peer, in whatever group, is printed. -/
theorem C6_watch_peer_joins_its_groups (w : World) (uuid : String) :
    (getNodeGroups w uuid).1 = memberGroups w uuid (w.zyre_peer_groups.getD []) ∧
    (∀ g, g ∈ (getNodeGroups w uuid).1 ↔
      ∃ groups peers, w.zyre_peer_groups = some groups ∧ g ∈ groups ∧
        w.zyre_peers_by_group g = some peers ∧ uuid ∈ peers) ∧
    ((∀ g peers, w.zyre_peers_by_group g = some peers → peers.Nodup) →
      (getNodeGroups w uuid).1 = (w.zyre_peer_groups.getD []).filter (isMember w uuid)) ∧
    (printNodeShouts w uuid).calls =
      w.calls ++ (getNodeGroups w uuid).1.map Call.join ++
        [.send ["PRINT SHOUTS FROM NODE", uuid]] ∧
    ((getNodeGroups w uuid).1 = [] →
      (printNodeShouts w uuid).calls = w.calls ++ [.send ["PRINT SHOUTS FROM NODE", uuid]]) ∧
    (w.zyre_peer_groups = none → (getNodeGroups w uuid).1 = []) ∧
    (∀ g, g ∈ (printNodeShouts w uuid).own_groups ↔
      g ∈ w.own_groups ∨ g ∈ (getNodeGroups w uuid).1) ∧
    (∀ (s : LoopState) (name group payload : String), ∃ s1,
      loopBody s (.pipe (some ["PRINT SHOUTS FROM NODE", uuid])) = .next s1 false ∧
      s1.node_to_print = uuid ∧ s1.group_to_print = "" ∧
      prints s1 (.node (some (Broadcast uuid name group payload).msg)) payload) := by
  have hret : (getNodeGroups w uuid).1 = memberGroups w uuid (w.zyre_peer_groups.getD []) := by
    unfold getNodeGroups
    cases hg : w.zyre_peer_groups with
    | none => simp [memberGroups]
    | some groups => simp [getNodeGroupsLoop_eq]
  have hcalls : (printNodeShouts w uuid).calls =
      w.calls ++ (getNodeGroups w uuid).1.map Call.join ++
        [.send ["PRINT SHOUTS FROM NODE", uuid]] := by
    unfold printNodeShouts getNodeGroups
    cases hg : w.zyre_peer_groups with
    | none => simp [zstr_sendx, printNodeShoutsLoop]
    | some groups => simp [zstr_sendx, printNodeShoutsLoop_calls]
  refine ⟨hret, ?_, ?_, hcalls, ?_, ?_, ?_, ?_⟩
  · intro g
    rw [hret, mem_memberGroups]
    cases hg : w.zyre_peer_groups with
    | none => simp
    | some groups =>
      simp only [Option.getD_some, Option.some.injEq]
      constructor
      · rintro ⟨h1, peers, h2, h3⟩
        exact ⟨groups, peers, rfl, h1, h2, h3⟩
      · rintro ⟨groups1, peers, rfl, h1, h2, h3⟩
        exact ⟨h1, peers, h2, h3⟩
  · intro hnodup
    rw [hret, memberGroups_eq_filter w uuid hnodup]
  · intro hnil
    rw [hcalls, hnil]
    simp
  · intro hnone
    rw [hret, hnone]
    simp [memberGroups]
  · intro g
    unfold printNodeShouts getNodeGroups
    cases hg : w.zyre_peer_groups with
    | none => simp [zstr_sendx, printNodeShoutsLoop]
    | some groups => simp [zstr_sendx, printNodeShoutsLoop_own_groups]
  · intro s name group payload
    refine ⟨{ s with node_to_print := uuid, group_to_print := "" }, ?_, rfl, rfl, ?_⟩
    · simp [loopBody, pipeBranch, zmsg_popstr]
    · simp only [Broadcast, NetworkEvent.msg]
      rw [prints_shout_iff]
      exact Or.inl rfl

/-- C6 on the example overlay, whose member lists have no duplicates: the
groups returned for `P1` are the overlay's groups filtered by membership. -/
theorem C6_watch_peer_joins_its_groups_witness :
    (∀ g peers, exampleWorld.zyre_peers_by_group g = some peers → peers.Nodup) ∧
    (getNodeGroups exampleWorld "P1").1 =
      (exampleWorld.zyre_peer_groups.getD []).filter (isMember exampleWorld "P1") ∧
    (getNodeGroups exampleWorld "P1").1 = ["G1", "G3"] :=
  have hnodup : ∀ g peers, exampleWorld.zyre_peers_by_group g = some peers → peers.Nodup := by
    intro g peers h
    simp only [exampleWorld] at h
    split_ifs at h
    · obtain rfl := Option.some.inj h; decide
    · obtain rfl := Option.some.inj h; decide
    · obtain rfl := Option.some.inj h; decide
  ⟨hnodup, (C6_watch_peer_joins_its_groups exampleWorld "P1").2.2.1 hnodup, by decide⟩

/-! ## C7: stopping leaves every group -/

/-- C7: `stopPrinting` issues one leave for every group the node is in, in
the order of the list and none skipped, then sends `STOP PRINT`; the node is
in no group afterwards; and once the loop has processed the command,
`node_to_print` and `group_to_print` are both empty, the `Inactive` state. -/
theorem C7_stop_leaves_every_group (w : World) :
    (stopPrinting w).calls =
      w.calls ++ w.own_groups.map Call.leave ++ [.send ["STOP PRINT"]] ∧
    (stopPrinting w).own_groups = [] ∧
    (∀ s : LoopState, ∃ s1,
      loopBody s (.pipe (some ["STOP PRINT"])) = .next s1 false ∧
      s1.node_to_print = FilterState.Inactive.node_to_print ∧
      s1.group_to_print = FilterState.Inactive.group_to_print ∧
      s1.uuid_to_name_map = s.uuid_to_name_map ∧ s1.cout = s.cout) := by
  refine ⟨?_, ?_, ?_⟩
  · simp [stopPrinting, zstr_sendx, stopPrintingLoop_calls]
  · simp [stopPrinting, zstr_sendx, stopPrintingLoop_own_groups]
  · intro s
    exact ⟨{ s with node_to_print := "", group_to_print := "" },
      by simp [loopBody, pipeBranch, zmsg_popstr], rfl, rfl, rfl, rfl⟩

/-! ## C9: malformed operator commands -/

/-- C9: on `node` or `group` without a sub-command, and on `node info`,
`node listen`, `group info`, `group listen` without an argument, the body of
the command loop writes `error` to `std::cerr` and does nothing else: no
join, no leave, nothing sent to the actor, the directory and the node's
groups as they were; the loop then goes on with the next command. -/
theorem C9_malformed_command_reports_error (w : World) (cmd : List String)
    (h : cmd ∈ [["node"], ["group"], ["node", "info"], ["node", "listen"],
      ["group", "info"], ["group", "listen"]]) :
    mainBody w cmd = .next { w with cerr := w.cerr ++ "error" ++ "\n" } ∧
    (∃ w1, mainBody w cmd = .next w1 ∧ w1.calls = w.calls ∧ w1.own_groups = w.own_groups ∧
      w1.uuid_to_name_map = w.uuid_to_name_map ∧ w1.cout = w.cout ∧
      w1.cerr = w.cerr ++ "error" ++ "\n") ∧
    (∀ cmds, mainLoop w (cmd :: cmds) =
      mainLoop { w with cerr := w.cerr ++ "error" ++ "\n" } cmds) := by
  have hbody : mainBody w cmd = .next { w with cerr := w.cerr ++ "error" ++ "\n" } := by
    simp only [List.mem_cons, List.mem_singleton, List.not_mem_nil, or_false] at h
    rcases h with rfl | rfl | rfl | rfl | rfl | rfl <;> simp [mainBody, reportError]
  refine ⟨hbody, ⟨_, hbody, rfl, rfl, rfl, rfl, rfl⟩, ?_⟩
  intro cmds
  simp only [mainLoop, hbody]

/-- C9 on `node listen` without a uuid, in the example overlay: nothing is
joined and nothing is sent. -/
theorem C9_malformed_command_reports_error_witness :
    ["node", "listen"] ∈ [["node"], ["group"], ["node", "info"], ["node", "listen"],
      ["group", "info"], ["group", "listen"]] ∧
    ∃ w1, mainBody exampleWorld ["node", "listen"] = .next w1 ∧
      w1.calls = exampleWorld.calls ∧ w1.own_groups = exampleWorld.own_groups ∧
      w1.uuid_to_name_map = exampleWorld.uuid_to_name_map ∧ w1.cout = exampleWorld.cout ∧
      w1.cerr = exampleWorld.cerr ++ "error" ++ "\n" :=
  ⟨by decide,
    (C9_malformed_command_reports_error exampleWorld ["node", "listen"] (by decide)).2.1⟩

/-! ## C10: the peer list -/

/-- C10 fails on the code: `printNodeList` ends the line only in the branch of
a known name.  With `P2` unknown and `P1` known as `Alice`, the peers `P2`,
`P1` are written as one line, and two unknown peers are written without any
line end. -/
theorem C10_unknown_peer_line_not_ended :
    printNodeListLoop [("P1", "Alice")] ["P2", "P1"] "" = "\tP2\tP1 (Alice)\n" ∧
    printNodeListLoop [] ["P1", "P2"] "" = "\tP1\tP2" ∧
    (printNodeList exampleWorld).cout = "\tP1 (Alice)\n\tP2" := by
  decide

end ZyreTools
